import Mathlib

/-
  Verification of the OverflowWrapper library (overflow_checks.hpp and
  intwrapper.hpp) against its natural-language specification.

  The embedding models the C++ integral types of the standard widths
  (8/16/32/64 bits, signed and unsigned) together with the C++ integer
  promotion and usual-arithmetic-conversion rules, since the library's
  predicate templates accept operands of differing signedness and width
  and every arithmetic operation and comparison in their bodies is
  performed after those conversions.  Values are mathematical integers;
  a value of a C++ type t is an integer in [tmin t, tmax t].  Conversion
  to a type is modular (two's complement), which is the C++20 rule for
  integral conversions; arithmetic whose C++ result type is signed and
  which overflows is likewise modelled as wrapping, matching the
  two's-complement behaviour the library's own comments assume
  ("Should work in the vast majority of implementations").
-/

/-- The eight standard-width C++ integral types: signed and unsigned
8, 16, 32 and 64 bit (signed char, short, int, long long and their
unsigned counterparts). -/
inductive CTy where
  | i8
  | i16
  | i32
  | i64
  | u8
  | u16
  | u32
  | u64
deriving DecidableEq

/-- Bit width of a C++ integral type. -/
def tbits : CTy → Nat
  | .i8 => 8
  | .i16 => 16
  | .i32 => 32
  | .i64 => 64
  | .u8 => 8
  | .u16 => 16
  | .u32 => 32
  | .u64 => 64

/-- Signedness of a C++ integral type. -/
def tsigned : CTy → Bool
  | .i8 => true
  | .i16 => true
  | .i32 => true
  | .i64 => true
  | .u8 => false
  | .u16 => false
  | .u32 => false
  | .u64 => false

/-- `std::numeric_limits<T>::min()` as a mathematical integer. -/
def tmin (t : CTy) : Int :=
  if tsigned t then -(2 ^ (tbits t - 1)) else 0

/-- `std::numeric_limits<T>::max()` as a mathematical integer. -/
def tmax (t : CTy) : Int :=
  if tsigned t then 2 ^ (tbits t - 1) - 1 else 2 ^ tbits t - 1

/-- C++20 integral conversion of an integer value to type `t`: the unique
value representable in `t` that is congruent to `v` modulo `2 ^ tbits t`. -/
def cconv (t : CTy) (v : Int) : Int :=
  if tsigned t then (v + 2 ^ (tbits t - 1)) % 2 ^ tbits t - 2 ^ (tbits t - 1)
  else v % 2 ^ tbits t

/-- C++ integer promotion: every type narrower than `int` promotes to
`int` (`int` represents all values of the narrower types). -/
def promote (t : CTy) : CTy :=
  if tbits t < 32 then .i32 else t

/-- C++ usual arithmetic conversions: the common type of the two
(promoted) operand types of a binary operator.  With the standard-width
types, rank is determined by the bit width. -/
def commonType (a b : CTy) : CTy :=
  let pa := promote a
  let pb := promote b
  if tsigned pa = tsigned pb then
    if tbits pb ≤ tbits pa then pa else pb
  else if tsigned pa then
    if tbits pa ≤ tbits pb then pb else pa
  else
    if tbits pb ≤ tbits pa then pa else pb

/-- C++ comparison `x < y`, for `x` of type `a` and `y` of type `b`:
both operands are converted to the common type first. -/
def clt (a b : CTy) (x y : Int) : Bool :=
  decide (cconv (commonType a b) x < cconv (commonType a b) y)

/-- C++ comparison `x > y` after the usual arithmetic conversions. -/
def cgt (a b : CTy) (x y : Int) : Bool :=
  decide (cconv (commonType a b) y < cconv (commonType a b) x)

/-- C++ comparison `x >= y` after the usual arithmetic conversions. -/
def cge (a b : CTy) (x y : Int) : Bool :=
  decide (cconv (commonType a b) y ≤ cconv (commonType a b) x)

/-- C++ comparison `x == y` after the usual arithmetic conversions. -/
def ceq (a b : CTy) (x y : Int) : Bool :=
  decide (cconv (commonType a b) x = cconv (commonType a b) y)

/-- C++ unary negation `-x` for `x` of type `a`: the operand is promoted
and the result is converted (wraps) in the promoted type. -/
def cneg (a : CTy) (x : Int) : Int :=
  cconv (promote a) (-(cconv (promote a) x))

/-- Value of the C++ expression `x + y` (operand types `a`, `b`),
computed in the common type with wrap-around. -/
def caddVal (a b : CTy) (x y : Int) : Int :=
  cconv (commonType a b) (cconv (commonType a b) x + cconv (commonType a b) y)

/-- Value of the C++ expression `x - y` (operand types `a`, `b`). -/
def csubVal (a b : CTy) (x y : Int) : Int :=
  cconv (commonType a b) (cconv (commonType a b) x - cconv (commonType a b) y)

/-- Value of the C++ expression `x * y` (operand types `a`, `b`). -/
def cmulVal (a b : CTy) (x y : Int) : Int :=
  cconv (commonType a b) (cconv (commonType a b) x * cconv (commonType a b) y)

/-- Value of the C++ expression `x / y` (operand types `a`, `b`);
C++ division truncates toward zero (`Int.tdiv`). -/
def cdivVal (a b : CTy) (x y : Int) : Int :=
  cconv (commonType a b) (Int.tdiv (cconv (commonType a b) x) (cconv (commonType a b) y))

namespace checks

/-- `overflow::checks::Sub<LhsT, RhsT>(lhs, rhs)` (overflow_checks.hpp
lines 57-62):
`rhs < 0 && lhs > max(LhsT) + rhs || rhs > 0 && lhs < min(LhsT) + rhs`,
with every comparison and addition performed under the C++ usual
arithmetic conversions. -/
def Sub (L R : CTy) (lhs rhs : Int) : Bool :=
  (clt R .i32 rhs 0 && cgt L (commonType L R) lhs (caddVal L R (tmax L) rhs))
    || (cgt R .i32 rhs 0 && clt L (commonType L R) lhs (caddVal L R (tmin L) rhs))

/-- `overflow::checks::Sum<LhsT, RhsT>(lhs, rhs)` (overflow_checks.hpp
lines 79-92): if `rhs < 0`, return `true` when `rhs == min(RhsT)` and
otherwise delegate to `Sub(lhs, -rhs)` (the negation has the promoted
type of `RhsT`); if `lhs >= 0`, return `max(LhsT) - lhs < rhs`;
otherwise return `max(LhsT) - rhs < lhs`. -/
def Sum (L R : CTy) (lhs rhs : Int) : Bool :=
  if clt R .i32 rhs 0 then
    if ceq R R rhs (tmin R) then true
    else checks.Sub L (promote R) lhs (cneg R rhs)
  else if cge L .i32 lhs 0 then
    clt (promote L) R (csubVal L L (tmax L) lhs) rhs
  else
    clt (commonType L R) L (csubVal L R (tmax L) rhs) lhs

/-- One fuel-indexed step of `overflow::checks::Mul<LhsT, RhsT>(lhs, rhs)`
(overflow_checks.hpp lines 109-134).  The C++ function recurses in the
both-negative branch as `Mul(-lhs, -rhs)`; the negated arguments have
the promoted operand types, so the recursive call is instantiated at
`<promote LhsT, promote RhsT>` and uses that type's limits.  Fuel `0`
is a placeholder never reached from fuel `2` (proved below). -/
def MulGo : Nat → CTy → CTy → Int → Int → Bool
  | 0, _, _, _, _ => false
  | n + 1, L, R, lhs, rhs =>
    if ceq L .i32 lhs 0 || ceq R .i32 rhs 0 then false
    else if clt L .i32 lhs 0 then
      if clt R .i32 rhs 0 then
        if ceq L L lhs (tmin L) || ceq R L rhs (tmin L) then true
        else checks.MulGo n (promote L) (promote R) (cneg L lhs) (cneg R rhs)
      else clt (promote L) R (cdivVal L L (tmin L) lhs) rhs
    else if clt R .i32 rhs 0 then
      clt (commonType L R) L (cdivVal L R (tmin L) rhs) lhs
    else
      clt (promote L) R (cdivVal L L (tmax L) lhs) rhs

/-- `overflow::checks::Mul<LhsT, RhsT>(lhs, rhs)`: the recursion depth is
at most one, so fuel `2` computes the C++ function. -/
def Mul (L R : CTy) (lhs rhs : Int) : Bool :=
  checks.MulGo 2 L R lhs rhs

/-- `overflow::checks::Div<LhsT, RhsT>(lhs, rhs)` (overflow_checks.hpp
lines 151-157): the body is `return false;` (marked TODO); the operands
are ignored. -/
def Div (_L _R : CTy) (_lhs _rhs : Int) : Bool :=
  false

/-- `overflow::checks::Assign<LhsT, RhsT>(rhs)` (overflow_checks.hpp
lines 174-179): `rhs > max(LhsT) || rhs < min(LhsT)`, each comparison
under the C++ usual arithmetic conversions. -/
def Assign (L R : CTy) (rhs : Int) : Bool :=
  cgt R L rhs (tmax L) || clt R L rhs (tmin L)

end checks

/-- Outcome of a mutating wrapper operation: whether
`std::overflow_error` was thrown, and the stored `value` afterwards
(the throw happens before the mutation, so on error the stored value is
the original one). -/
structure OpResult where
  err : Bool
  value : Int
deriving DecidableEq

/-- `overflow::IntWrapper<T>::IntWrapper<ArgT>(const ArgT &val)`
(intwrapper.hpp lines 91-98): throws when `checks::Assign<T, ArgT>(val)`
reports overflow (`none`), otherwise the stored value is `val` converted
to `T`. -/
def construct (T ArgT : CTy) (val : Int) : Option Int :=
  if checks.Assign T ArgT val then none else some (cconv T val)

/-- `overflow::IntWrapper<T>::Get()` (intwrapper.hpp lines 330, 337):
returns the stored value. -/
def wrapGet (v : Int) : Int :=
  v

/-- `overflow::IntWrapper<T>::operator T()` (intwrapper.hpp line 317):
the implicit conversion to the wrapped type returns the stored value. -/
def wrapToRaw (v : Int) : Int :=
  v

/-- `overflow::IntWrapper<T>::operator=(const RhsT &rhs)` (intwrapper.hpp
lines 113-122): throws when `checks::Assign<T, RhsT>(rhs)` reports
overflow, leaving the stored value `v` unchanged; otherwise stores `rhs`
converted to `T`. -/
def opAssign (T R : CTy) (v rhs : Int) : OpResult :=
  if checks.Assign T R rhs then ⟨true, v⟩ else ⟨false, cconv T rhs⟩

/-- `overflow::IntWrapper<T>::operator+=(const RhsT &rhs)` (intwrapper.hpp
lines 137-146): throws when `checks::Sum(value, rhs)` reports overflow,
leaving `value` unchanged; otherwise performs `value += rhs`. -/
def opAddAssign (T R : CTy) (v r : Int) : OpResult :=
  if checks.Sum T R v r then ⟨true, v⟩ else ⟨false, cconv T (caddVal T R v r)⟩

/-- `overflow::IntWrapper<T>::operator-=(const RhsT &rhs)` (intwrapper.hpp
lines 155-164). -/
def opSubAssign (T R : CTy) (v r : Int) : OpResult :=
  if checks.Sub T R v r then ⟨true, v⟩ else ⟨false, cconv T (csubVal T R v r)⟩

/-- `overflow::IntWrapper<T>::operator*=(const RhsT &rhs)` (intwrapper.hpp
lines 173-182). -/
def opMulAssign (T R : CTy) (v r : Int) : OpResult :=
  if checks.Mul T R v r then ⟨true, v⟩ else ⟨false, cconv T (cmulVal T R v r)⟩

/-- `overflow::IntWrapper<T>::operator/=(const RhsT &rhs)` (intwrapper.hpp
lines 191-200): consults `checks::Div` (which never reports overflow) and
then performs `value /= rhs`.  A zero divisor is undefined behaviour in
C++; the embedding returns the junk value `Int.tdiv _ 0 = 0` there, and
no theorem below relies on the stored value in that case. -/
def opDivAssign (T R : CTy) (v r : Int) : OpResult :=
  if checks.Div T R v r then ⟨true, v⟩ else ⟨false, cconv T (cdivVal T R v r)⟩

/-- Free `operator+=(IntWrapper<L> &, const IntWrapper<R> &)`
(intwrapper.hpp lines 368-373): delegates to the scalar compound
operator on `rhs.Get()`. -/
def opAddAssignW (T R : CTy) (v rv : Int) : OpResult :=
  opAddAssign T R v (wrapGet rv)

/-- Free `operator-=` between two wrappers (intwrapper.hpp lines 382-387). -/
def opSubAssignW (T R : CTy) (v rv : Int) : OpResult :=
  opSubAssign T R v (wrapGet rv)

/-- Free `operator*=` between two wrappers (intwrapper.hpp lines 396-401). -/
def opMulAssignW (T R : CTy) (v rv : Int) : OpResult :=
  opMulAssign T R v (wrapGet rv)

/-- `operator++(IntWrapper<T> &)` (intwrapper.hpp line 495): defined as
`operand += 1`; the literal `1` has type `int`. -/
def incPre (T : CTy) (v : Int) : OpResult :=
  opAddAssign T .i32 v 1

/-- `operator++(IntWrapper<T> &, int)` (intwrapper.hpp lines 505-510):
copies the operand, applies the checked increment, and returns the copy
of the pre-operation value (second component). -/
def incPost (T : CTy) (v : Int) : OpResult × Int :=
  (incPre T v, v)

/-- `operator--(IntWrapper<T> &)` (intwrapper.hpp line 520): defined as
`operand -= 1`. -/
def decPre (T : CTy) (v : Int) : OpResult :=
  opSubAssign T .i32 v 1

/-- `operator--(IntWrapper<T> &, int)` (intwrapper.hpp lines 530-535). -/
def decPost (T : CTy) (v : Int) : OpResult × Int :=
  (decPre T v, v)

/-- The C++ expression `w + r` for `w : IntWrapper<T>` and a raw operand
`r : R`.  The header declares no free `operator+`; the expression
compiles only through the implicit conversion `operator T()`
(intwrapper.hpp line 317) followed by the built-in addition on raw
integers, so it performs no overflow check and cannot throw.  First
component: whether an overflow error is raised (never); second: the
value, computed under the usual arithmetic conversions. -/
def wrapAddExpr (T R : CTy) (v r : Int) : Bool × Int :=
  (false, caddVal T R v r)

/-- The C++ expression `w - r`, analogous to `wrapAddExpr`. -/
def wrapSubExpr (T R : CTy) (v r : Int) : Bool × Int :=
  (false, csubVal T R v r)

/-- The C++ expression `w * r`, analogous to `wrapAddExpr`. -/
def wrapMulExpr (T R : CTy) (v r : Int) : Bool × Int :=
  (false, cmulVal T R v r)

/-- The free binary `+` as the specification describes it (spec section
4.2, "Free binary operators"): delegate to the matching compound
operator on a copy of the wrapper and return the raw result.  Stated
from the spec's words for comparison with `wrapAddExpr`, which is what
the source actually provides. -/
def specFreeAdd (T R : CTy) (v r : Int) : Bool × Int :=
  ((opAddAssign T R v r).err, (opAddAssign T R v r).value)

/- ------------------------------------------------------------------ -/
/- Arithmetic facts about the conversion model                        -/
/- ------------------------------------------------------------------ -/

/-- Conversion is the identity on values representable in the type. -/
theorem cconv_of_repr (t : CTy) (v : Int) (h1 : tmin t ≤ v) (h2 : v ≤ tmax t) :
    cconv t v = v := by
  cases t <;> simp [cconv, tmin, tmax, tbits, tsigned] at h1 h2 ⊢ <;> omega

/-- The result of a conversion is representable in the target type. -/
theorem cconv_repr (t : CTy) (v : Int) :
    tmin t ≤ cconv t v ∧ cconv t v ≤ tmax t := by
  cases t <;> simp [cconv, tmin, tmax, tbits, tsigned] <;> omega

/-- Conversion preserves the residue modulo the type's modulus. -/
theorem cconv_emod_self (t : CTy) (v : Int) :
    cconv t v % 2 ^ tbits t = v % 2 ^ tbits t := by
  unfold cconv
  by_cases h : tsigned t
  · simp only [h, if_true]
    rw [Int.sub_emod, Int.emod_emod_of_dvd _ dvd_rfl, ← Int.sub_emod,
      add_sub_cancel_right]
  · simp only [h, if_false]
    exact Int.emod_emod_of_dvd _ dvd_rfl

/-- Conversion only depends on the residue modulo the type's modulus. -/
theorem cconv_eq_of_emod_eq (t : CTy) (a b : Int)
    (h : a % 2 ^ tbits t = b % 2 ^ tbits t) : cconv t a = cconv t b := by
  unfold cconv
  by_cases hs : tsigned t
  · simp only [hs, if_true]
    rw [Int.add_emod, h, ← Int.add_emod]
  · simp [hs, h]

/-- The common type of a binary operation is at least as wide as the
left operand's type. -/
theorem tbits_le_commonType_left (t r : CTy) :
    tbits t ≤ tbits (commonType t r) := by
  cases t <;> cases r <;> decide

/-- The wrapped C++ sum is congruent to the exact sum modulo the common
type's modulus. -/
theorem caddVal_emod (a b : CTy) (x y : Int) :
    caddVal a b x y % 2 ^ tbits (commonType a b)
      = (x + y) % 2 ^ tbits (commonType a b) := by
  unfold caddVal
  rw [cconv_emod_self, Int.add_emod, cconv_emod_self, cconv_emod_self,
    ← Int.add_emod]

/-- The wrapped C++ difference is congruent to the exact difference. -/
theorem csubVal_emod (a b : CTy) (x y : Int) :
    csubVal a b x y % 2 ^ tbits (commonType a b)
      = (x - y) % 2 ^ tbits (commonType a b) := by
  unfold csubVal
  rw [cconv_emod_self, Int.sub_emod, cconv_emod_self, cconv_emod_self,
    ← Int.sub_emod]

/-- The wrapped C++ product is congruent to the exact product. -/
theorem cmulVal_emod (a b : CTy) (x y : Int) :
    cmulVal a b x y % 2 ^ tbits (commonType a b)
      = (x * y) % 2 ^ tbits (commonType a b) := by
  unfold cmulVal
  rw [cconv_emod_self, Int.mul_emod, cconv_emod_self, cconv_emod_self,
    ← Int.mul_emod]

/-- Storing the C++ sum into `T` yields the exact sum whenever the exact
sum is representable in `T`. -/
theorem store_caddVal_exact (T R : CTy) (v r : Int)
    (h1 : tmin T ≤ v + r) (h2 : v + r ≤ tmax T) :
    cconv T (caddVal T R v r) = v + r := by
  have hd : (2 : Int) ^ tbits T ∣ 2 ^ tbits (commonType T R) :=
    pow_dvd_pow 2 (tbits_le_commonType_left T R)
  have hm : caddVal T R v r % 2 ^ tbits T = (v + r) % 2 ^ tbits T := by
    rw [← Int.emod_emod_of_dvd _ hd, caddVal_emod, Int.emod_emod_of_dvd _ hd]
  rw [cconv_eq_of_emod_eq T _ _ hm, cconv_of_repr T _ h1 h2]

/-- Storing the C++ difference into `T` yields the exact difference
whenever the exact difference is representable in `T`. -/
theorem store_csubVal_exact (T R : CTy) (v r : Int)
    (h1 : tmin T ≤ v - r) (h2 : v - r ≤ tmax T) :
    cconv T (csubVal T R v r) = v - r := by
  have hd : (2 : Int) ^ tbits T ∣ 2 ^ tbits (commonType T R) :=
    pow_dvd_pow 2 (tbits_le_commonType_left T R)
  have hm : csubVal T R v r % 2 ^ tbits T = (v - r) % 2 ^ tbits T := by
    rw [← Int.emod_emod_of_dvd _ hd, csubVal_emod, Int.emod_emod_of_dvd _ hd]
  rw [cconv_eq_of_emod_eq T _ _ hm, cconv_of_repr T _ h1 h2]

/-- Storing the C++ product into `T` yields the exact product whenever
the exact product is representable in `T`. -/
theorem store_cmulVal_exact (T R : CTy) (v r : Int)
    (h1 : tmin T ≤ v * r) (h2 : v * r ≤ tmax T) :
    cconv T (cmulVal T R v r) = v * r := by
  have hd : (2 : Int) ^ tbits T ∣ 2 ^ tbits (commonType T R) :=
    pow_dvd_pow 2 (tbits_le_commonType_left T R)
  have hm : cmulVal T R v r % 2 ^ tbits T = (v * r) % 2 ^ tbits T := by
    rw [← Int.emod_emod_of_dvd _ hd, cmulVal_emod, Int.emod_emod_of_dvd _ hd]
  rw [cconv_eq_of_emod_eq T _ _ hm, cconv_of_repr T _ h1 h2]

/-- Conversion is idempotent. -/
theorem cconv_cconv (t : CTy) (v : Int) : cconv t (cconv t v) = cconv t v :=
  cconv_of_repr t _ (cconv_repr t v).1 (cconv_repr t v).2

/-- The C++ sum equals the exact sum whenever the exact sum is
representable in the common type. -/
theorem caddVal_exact (a b : CTy) (x y : Int)
    (h1 : tmin (commonType a b) ≤ x + y) (h2 : x + y ≤ tmax (commonType a b)) :
    caddVal a b x y = x + y := by
  have h3 : cconv (commonType a b) (caddVal a b x y) = caddVal a b x y := by
    unfold caddVal
    exact cconv_cconv _ _
  rw [← h3, cconv_eq_of_emod_eq _ _ _ (caddVal_emod a b x y),
    cconv_of_repr _ _ h1 h2]

/-- The C++ difference equals the exact difference whenever it is
representable in the common type. -/
theorem csubVal_exact (a b : CTy) (x y : Int)
    (h1 : tmin (commonType a b) ≤ x - y) (h2 : x - y ≤ tmax (commonType a b)) :
    csubVal a b x y = x - y := by
  have h3 : cconv (commonType a b) (csubVal a b x y) = csubVal a b x y := by
    unfold csubVal
    exact cconv_cconv _ _
  rw [← h3, cconv_eq_of_emod_eq _ _ _ (csubVal_emod a b x y),
    cconv_of_repr _ _ h1 h2]

/-- The C++ product equals the exact product whenever it is representable
in the common type. -/
theorem cmulVal_exact (a b : CTy) (x y : Int)
    (h1 : tmin (commonType a b) ≤ x * y) (h2 : x * y ≤ tmax (commonType a b)) :
    cmulVal a b x y = x * y := by
  have h3 : cconv (commonType a b) (cmulVal a b x y) = cmulVal a b x y := by
    unfold cmulVal
    exact cconv_cconv _ _
  rw [← h3, cconv_eq_of_emod_eq _ _ _ (cmulVal_emod a b x y),
    cconv_of_repr _ _ h1 h2]

/- ------------------------------------------------------------------ -/
/- Recursion structure of Mul                                         -/
/- ------------------------------------------------------------------ -/

/-- Unfolding of one step of `checks.MulGo`. -/
theorem mulGo_succ (n : Nat) (L R : CTy) (lhs rhs : Int) :
    checks.MulGo (n + 1) L R lhs rhs =
      if ceq L .i32 lhs 0 || ceq R .i32 rhs 0 then false
      else if clt L .i32 lhs 0 then
        if clt R .i32 rhs 0 then
          if ceq L L lhs (tmin L) || ceq R L rhs (tmin L) then true
          else checks.MulGo n (promote L) (promote R) (cneg L lhs) (cneg R rhs)
        else clt (promote L) R (cdivVal L L (tmin L) lhs) rhs
      else if clt R .i32 rhs 0 then
        clt (commonType L R) L (cdivVal L R (tmin L) rhs) lhs
      else clt (promote L) R (cdivVal L L (tmax L) lhs) rhs := rfl

/-- If an operand of a negative-valued type-`L` expression is negated in
the promoted type and the negation is still negative, then the original
value was the promoted type's minimum and the negation wrapped to it. -/
theorem cneg_negative_is_min (L : CTy) (x : Int)
    (hx : clt L .i32 x 0 = true)
    (h1 : clt (promote L) .i32 (cneg L x) 0 = true) :
    ceq (promote L) (promote L) (cneg L x) (tmin (promote L)) = true := by
  cases L <;>
    simp [clt, ceq, cneg, cconv, commonType, promote, tmin, tbits, tsigned]
      at hx h1 ⊢ <;>
    omega

/-- After the both-negative branch negates its operands, the recursive
call of `Mul` never recurses again, so its result does not depend on the
remaining fuel. -/
theorem mulGo_fuel_one_of_neg (m k : Nat) (L R : CTy) (x y : Int)
    (hx : clt L .i32 x 0 = true) :
    checks.MulGo (m + 1) (promote L) (promote R) (cneg L x) (cneg R y) =
      checks.MulGo (k + 1) (promote L) (promote R) (cneg L x) (cneg R y) := by
  rw [mulGo_succ, mulGo_succ]
  by_cases h1 : (ceq (promote L) .i32 (cneg L x) 0
      || ceq (promote R) .i32 (cneg R y) 0) = true
  · simp [h1]
  · by_cases h2 : clt (promote L) .i32 (cneg L x) 0 = true
    · have hmin := cneg_negative_is_min L x hx h2
      simp [h1, h2, hmin]
    · simp [h1, h2]

/- ------------------------------------------------------------------ -/
/- Claim theorems                                                     -/
/- ------------------------------------------------------------------ -/

/-- C1: the claim states that `Sum(a, b)` returns true if and only if the
mathematically exact sum lies outside `[min(T), max(T)]`.  The code
violates it: `Sum<int, int>(0, -2^31)` takes the `rhs == min(RhsT)`
short-circuit and reports overflow, yet the exact sum `-2^31` is
representable in `int`. -/
theorem sum_min_shortcircuit_false_positive :
    checks.Sum .i32 .i32 0 (-(2 ^ 31)) = true
      ∧ tmin .i32 ≤ (0 : Int) + -(2 ^ 31)
      ∧ (0 : Int) + -(2 ^ 31) ≤ tmax .i32 := by
  decide

/-- C2: the claim states that `Mul(a, b)` returns true if and only if the
exact product lies outside `[min(T), max(T)]`.  The code violates it:
in `Mul<int8_t, int8_t>(-10, -20)` the both-negative branch recurses on
the negated operands, which have the promoted type `int`, so the
recursive instantiation checks against `int`'s limits and reports no
overflow although `200 > 127 = max(int8_t)`. -/
theorem mul_recursion_promotion_false_negative :
    checks.Mul .i8 .i8 (-10) (-20) = false
      ∧ tmax .i8 < (-10 : Int) * -20 := by
  decide

/-- C3: the claim states that `Assign<T, RhsT>(rhs)` returns true iff
`rhs` is outside `[min(T), max(T)]`, with mixed-signedness comparisons
done in a wide enough common type.  The code compares in the C++ common
type instead: in `Assign<int, unsigned>(5)` the comparison
`rhs < min(int)` converts `min(int)` to `unsigned` (value `2^31`), so
the in-range value `5` is reported as overflowing and construction of a
wrapper from it throws. -/
theorem assign_signed_unsigned_false_positive :
    checks.Assign .i32 .u32 5 = true
      ∧ tmin .i32 ≤ (5 : Int) ∧ (5 : Int) ≤ tmax .i32
      ∧ construct .i32 .u32 5 = none := by
  decide

/-- C5: the claim states that `Sub(lhs, rhs)` returns true iff
`(rhs < 0 ∧ lhs > max(T) + rhs) ∨ (rhs > 0 ∧ lhs < min(T) + rhs)` with
exact arithmetic.  The code violates it: in `Sub<int, unsigned>(-5, 2^31)`
the bound `min(int) + rhs` is computed in `unsigned` and wraps to `0`,
and `lhs` converts to `2^32 - 5`, so the comparison fails and no
overflow is reported, although the claim's exact formula holds at this
input (`rhs > 0` and `-5 < min(int) + 2^31 = 0`) and the exact
difference `-5 - 2^31` really is below `min(int)`. -/
theorem sub_unsigned_wraparound_false_negative :
    checks.Sub .i32 .u32 (-5) (2 ^ 31) = false
      ∧ (0 : Int) < 2 ^ 31
      ∧ (-5 : Int) < tmin .i32 + 2 ^ 31
      ∧ (-5 : Int) - 2 ^ 31 < tmin .i32 := by
  decide

/-- C6: `Div` returns false for every pair of inputs, and the compound
divide operator consequently never raises an overflow error. -/
theorem div_never_reports_overflow :
    ∀ (L R : CTy) (lhs rhs v : Int),
      checks.Div L R lhs rhs = false ∧ (opDivAssign L R v rhs).err = false := by
  intro L R lhs rhs v
  exact ⟨rfl, rfl⟩

/-- C10: the recursion of `Mul` has depth at most one: one extra unit of
fuel beyond two never changes the result, for every pair of operand
types and every pair of integer operands, so the fuel-2 computation
`checks.Mul` is the total function the C++ recursion computes.  (`Sum`
is structurally non-recursive: it makes at most one call to the
non-recursive `Sub`, which its Lean embedding shows directly.) -/
theorem mul_recursion_depth_at_most_one :
    ∀ (n : Nat) (L R : CTy) (lhs rhs : Int),
      checks.MulGo (n + 2) L R lhs rhs = checks.Mul L R lhs rhs := by
  intro n L R x y
  show checks.MulGo (n + 1 + 1) L R x y = checks.MulGo (1 + 1) L R x y
  rw [mulGo_succ (n + 1) L R x y, mulGo_succ 1 L R x y]
  by_cases h1 : (ceq L .i32 x 0 || ceq R .i32 y 0) = true
  · simp [h1]
  · by_cases h2 : clt L .i32 x 0 = true
    · by_cases h3 : clt R .i32 y 0 = true
      · by_cases h4 : (ceq L L x (tmin L) || ceq R L y (tmin L)) = true
        · simp [h1, h2, h3, h4]
        · have hrec := mulGo_fuel_one_of_neg n 0 L R x y h2
          simp [h1, h2, h3, h4, hrec]
      · simp [h1, h2, h3]
    · simp [h1, h2]

/-- C8 counterexample: the claim states that the free binary expressions
`w + r`, `w - r`, `w * r` delegate to the matching checked compound
operator and raise the overflow error exactly when it would.  At
`T = int8_t`, `v = 100`, `r = 50` the compound `+=` raises an overflow
error, but the expression `w + r` (which compiles through the implicit
conversion `operator T()`, since the header declares no free checked
`operator+`) raises nothing. -/
theorem free_add_unchecked_counterexample :
    (wrapAddExpr .i8 .i32 100 50).1 = false
      ∧ (specFreeAdd .i8 .i32 100 50).1 = true
      ∧ (opAddAssign .i8 .i32 100 50).err = true := by
  decide

/-- C8 (amended): the header declares no free `+`, `-`, `*` operators;
the expressions `w + r`, `w - r`, `w * r` compile through the implicit
conversion `operator T()` and the built-in arithmetic on raw integers.
They never raise an overflow error, and they compute the result under
the C++ usual arithmetic conversions — exactly the exact result whenever
it is representable in the common arithmetic type. -/
theorem free_ops_never_raise_and_compute_raw :
    ∀ (T R : CTy) (v r : Int),
      (wrapAddExpr T R v r).1 = false
        ∧ (wrapSubExpr T R v r).1 = false
        ∧ (wrapMulExpr T R v r).1 = false
        ∧ (tmin (commonType T R) ≤ v + r → v + r ≤ tmax (commonType T R) →
            (wrapAddExpr T R v r).2 = v + r)
        ∧ (tmin (commonType T R) ≤ v - r → v - r ≤ tmax (commonType T R) →
            (wrapSubExpr T R v r).2 = v - r)
        ∧ (tmin (commonType T R) ≤ v * r → v * r ≤ tmax (commonType T R) →
            (wrapMulExpr T R v r).2 = v * r) := by
  intro T R v r
  refine ⟨rfl, rfl, rfl, ?_, ?_, ?_⟩
  · intro h1 h2
    exact caddVal_exact T R v r h1 h2
  · intro h1 h2
    exact csubVal_exact T R v r h1 h2
  · intro h1 h2
    exact cmulVal_exact T R v r h1 h2

/-- Witness for the amended C8 theorem at a concrete input. -/
theorem free_ops_never_raise_witness :
    (wrapAddExpr CTy.i32 CTy.i32 3 4).2 = 3 + 4 :=
  ((free_ops_never_raise_and_compute_raw CTy.i32 CTy.i32 3 4).2.2.2.1)
    (by decide) (by decide)

/-- Same-type range checking is exact: for a value representable in `T`,
`Assign<T, T>` reports no overflow. -/
theorem assign_self_eq_false (T : CTy) (x : Int)
    (h1 : tmin T ≤ x) (h2 : x ≤ tmax T) : checks.Assign T T x = false := by
  cases T <;>
    simp [checks.Assign, cgt, clt, cconv, commonType, promote, tmin, tmax,
      tbits, tsigned] at h1 h2 ⊢ <;>
    omega

/-- C7: for every value `x` representable in `T`, constructing an
`IntWrapper<T>` from `x` (of type `T`) raises no error, and reading the
wrapper back through `Get` or the conversion operator yields exactly
`x`. -/
theorem construction_round_trip (T : CTy) (x : Int)
    (h1 : tmin T ≤ x) (h2 : x ≤ tmax T) :
    construct T T x = some x ∧ wrapGet x = x ∧ wrapToRaw x = x := by
  refine ⟨?_, rfl, rfl⟩
  simp [construct, assign_self_eq_false T x h1 h2, cconv_of_repr T x h1 h2]

/-- Witness for the C7 theorem at a concrete input. -/
theorem construction_round_trip_witness :
    construct CTy.i8 CTy.i8 5 = some 5 :=
  (construction_round_trip CTy.i8 5 (by decide) (by decide)).1

/-- C4: each compound operator raises the overflow error exactly when its
matching predicate reports overflow on the stored value and the operand;
on failure the stored value is left exactly as it was; on success the
stored value becomes the result of the arithmetic operation (the exact
result whenever that is representable in `T`); a wrapper operand is
first unwrapped to its stored value and then handled identically. -/
theorem compound_ops_check_then_mutate (T R : CTy) (v r : Int) :
    ((opAddAssign T R v r).err = checks.Sum T R v r)
    ∧ ((opSubAssign T R v r).err = checks.Sub T R v r)
    ∧ ((opMulAssign T R v r).err = checks.Mul T R v r)
    ∧ (checks.Sum T R v r = true → opAddAssign T R v r = ⟨true, v⟩)
    ∧ (checks.Sub T R v r = true → opSubAssign T R v r = ⟨true, v⟩)
    ∧ (checks.Mul T R v r = true → opMulAssign T R v r = ⟨true, v⟩)
    ∧ (checks.Sum T R v r = false → tmin T ≤ v + r → v + r ≤ tmax T →
        opAddAssign T R v r = ⟨false, v + r⟩)
    ∧ (checks.Sub T R v r = false → tmin T ≤ v - r → v - r ≤ tmax T →
        opSubAssign T R v r = ⟨false, v - r⟩)
    ∧ (checks.Mul T R v r = false → tmin T ≤ v * r → v * r ≤ tmax T →
        opMulAssign T R v r = ⟨false, v * r⟩)
    ∧ opAddAssignW T R v r = opAddAssign T R v r
    ∧ opSubAssignW T R v r = opSubAssign T R v r
    ∧ opMulAssignW T R v r = opMulAssign T R v r := by
  refine ⟨?_, ?_, ?_, ?_, ?_, ?_, ?_, ?_, ?_, rfl, rfl, rfl⟩
  · by_cases h : checks.Sum T R v r <;> simp [opAddAssign, h]
  · by_cases h : checks.Sub T R v r <;> simp [opSubAssign, h]
  · by_cases h : checks.Mul T R v r <;> simp [opMulAssign, h]
  · intro h
    simp [opAddAssign, h]
  · intro h
    simp [opSubAssign, h]
  · intro h
    simp [opMulAssign, h]
  · intro h h1 h2
    simp [opAddAssign, h, store_caddVal_exact T R v r h1 h2]
  · intro h h1 h2
    simp [opSubAssign, h, store_csubVal_exact T R v r h1 h2]
  · intro h h1 h2
    simp [opMulAssign, h, store_cmulVal_exact T R v r h1 h2]

/-- Witness for the C4 theorem at a concrete input. -/
theorem compound_ops_witness :
    opAddAssign CTy.i32 CTy.i32 3 4 = ⟨false, 3 + 4⟩ :=
  ((compound_ops_check_then_mutate CTy.i32 CTy.i32 3 4).2.2.2.2.2.2.1)
    (by decide) (by decide) (by decide)

/-- Adding the `int` literal `1` to a representable value strictly below
the maximum never reports overflow. -/
theorem sum_one_eq_false (T : CTy) (v : Int)
    (h1 : tmin T ≤ v) (h2 : v < tmax T) : checks.Sum T .i32 v 1 = false := by
  cases T <;>
    simp [checks.Sum, checks.Sub, clt, cge, ceq, cgt, cneg, csubVal, caddVal,
      cconv, commonType, promote, tmin, tmax, tbits, tsigned] at h1 h2 ⊢ <;>
    (try split_ifs) <;>
    omega

/-- Subtracting the `int` literal `1` from a representable value strictly
above the minimum never reports overflow. -/
theorem sub_one_eq_false (T : CTy) (v : Int)
    (h1 : tmin T < v) (h2 : v ≤ tmax T) : checks.Sub T .i32 v 1 = false := by
  cases T <;>
    simp [checks.Sub, clt, cgt, csubVal, caddVal, cconv, commonType, promote,
      tmin, tmax, tbits, tsigned] at h1 h2 ⊢ <;>
    omega

/-- C9: prefix increment and decrement are exactly `+= 1` and `-= 1` on
the wrapper; postfix returns the pre-operation value while mutating by
the same step; an overflow raised by the underlying compound operator
leaves the stored value unchanged; and on in-range values the operations
succeed with the value moved by one. -/
theorem inc_dec_via_compound (T : CTy) (v : Int) :
    incPre T v = opAddAssign T .i32 v 1
    ∧ decPre T v = opSubAssign T .i32 v 1
    ∧ incPost T v = (incPre T v, v)
    ∧ decPost T v = (decPre T v, v)
    ∧ ((incPre T v).err = true → (incPre T v).value = v)
    ∧ ((decPre T v).err = true → (decPre T v).value = v)
    ∧ (tmin T ≤ v → v < tmax T → incPre T v = ⟨false, v + 1⟩)
    ∧ (tmin T < v → v ≤ tmax T → decPre T v = ⟨false, v - 1⟩) := by
  refine ⟨rfl, rfl, rfl, rfl, ?_, ?_, ?_, ?_⟩
  · intro h
    by_cases hs : checks.Sum T .i32 v 1 = true
    · simp [incPre, opAddAssign, hs]
    · simp [incPre, opAddAssign, hs] at h
  · intro h
    by_cases hs : checks.Sub T .i32 v 1 = true
    · simp [decPre, opSubAssign, hs]
    · simp [decPre, opSubAssign, hs] at h
  · intro ha hb
    have hs := sum_one_eq_false T v ha hb
    have hup : v + 1 ≤ tmax T := hb
    have hlo : tmin T ≤ v + 1 := by linarith
    simp [incPre, opAddAssign, hs, store_caddVal_exact T .i32 v 1 hlo hup]
  · intro ha hb
    have hs := sub_one_eq_false T v ha hb
    have hlo : tmin T ≤ v - 1 := by linarith
    have hup : v - 1 ≤ tmax T := by linarith
    simp [decPre, opSubAssign, hs, store_csubVal_exact T .i32 v 1 hlo hup]

/-- Witness for the C9 theorem at a concrete input. -/
theorem inc_dec_witness : incPre CTy.i32 0 = ⟨false, 0 + 1⟩ :=
  ((inc_dec_via_compound CTy.i32 0).2.2.2.2.2.2.1) (by decide) (by decide)
